import Mathlib

/-!
Shallow embedding of circam (src/circam.c), a circular webcam viewer:
a V4L2 capture pipeline (fixed pool of 4 mmap buffers cycled through a
queue/dequeue protocol) plus a geometry/shape controller (keyboard, wheel
and window-manager resizes of a square shaped window with a circular
alpha mask).  Machine integers are modelled as Int/Nat; SDL tick values
are modelled as Nat with truncated subtraction (the 32-bit wraparound of
SDL_GetTicks after ~49 days is outside the model).  External collaborators
(SDL, the kernel driver) appear as explicit parameters: the driver's
answers to REQBUFS/QUERYBUF/mmap/DQBUF, the window system's read-back
size, and the per-iteration event list.
-/

namespace Circam

/-- Constant DEFAULT_SIZE of circam.c line 13. -/
def DEFAULT_SIZE : Int := 480

/-- Constant MIN_SIZE of circam.c line 14 (CLI lower bound for -s). -/
def MIN_SIZE : Int := 100

/-- Constant MIN_WINDOW_SIZE of circam.c line 15 (runtime lower bound). -/
def MIN_WINDOW_SIZE : Int := 50

/-- Constant SIZE_STEP of circam.c line 16 (keyboard/wheel resize step). -/
def SIZE_STEP : Int := 10

/-- Constant RESIZE_STABILIZE_MS of circam.c line 17 (debounce delay). -/
def RESIZE_STABILIZE_MS : Nat := 100

/-- Pixel value SDL_MapRGBA(format, 255, 255, 255, 255) with masks
R=0xFF0000 G=0xFF00 B=0xFF A=0xFF000000: fully opaque white. -/
def maskWhite : Nat := 4294967295

/-- Pixel value SDL_MapRGBA(format, 0, 0, 0, 0): fully transparent. -/
def maskClear : Nat := 0

/-- Alpha component of a 32-bit pixel under the Amask 0xFF000000 used by
create_circular_shape's surface. -/
def alphaOf (p : Nat) : Nat := p / 16777216 % 256

/-- Body of the inner x-loop of create_circular_shape (circam.c lines
48-52): paint pixels[y*size+x] white when dx*dx + dy2 <= radius. -/
def rowStep (size : Nat) (center radius dy2 : Int) (y : Nat) (px2 : List Nat) (x : Nat) :
    List Nat :=
  if ((x : Int) - center) * ((x : Int) - center) + dy2 ≤ radius then
    px2.set (y * size + x) maskWhite
  else px2

/-- Inner x-loop of create_circular_shape (circam.c lines 48-53). -/
def shapeRow (size : Nat) (center radius dy2 : Int) (y : Nat) (px : List Nat) : List Nat :=
  (List.range size).foldl (rowStep size center radius dy2 y) px

/-- Body of the outer y-loop of create_circular_shape (circam.c lines
45-54): dy = y - center, dy2 = dy*dy, then the inner x-loop. -/
def colStep (size : Nat) (center radius : Int) (px : List Nat) (y : Nat) : List Nat :=
  shapeRow size center radius (((y : Int) - center) * ((y : Int) - center)) y px

/-- create_circular_shape (circam.c lines 34-56): a size-by-size 32-bit
surface, first filled fully transparent, then the inscribed disc of
radius size/2 around (size/2, size/2) painted opaque white.  The pixel
array is modelled as a row-major list of 32-bit values; center = size/2
and radius = center*center exactly as in the source. -/
def create_circular_shape (size : Nat) : List Nat :=
  let center : Int := (size : Int) / 2
  let radius : Int := center * center
  (List.range size).foldl (colStep size center radius)
    (List.replicate (size * size) maskClear)

/-- Distinct (row, column) pairs within a size-wide grid give distinct
row-major indices. -/
lemma rowmajor_inj {size y1 x1 y2 x2 : Nat} (hx1 : x1 < size) (hx2 : x2 < size)
    (h : y1 * size + x1 = y2 * size + x2) : y1 = y2 ∧ x1 = x2 := by
  rcases lt_trichotomy y1 y2 with hy | hy | hy
  · exfalso
    have h2 : (y1 + 1) * size ≤ y2 * size := Nat.mul_le_mul_right size hy
    rw [Nat.succ_mul] at h2
    omega
  · subst hy; exact ⟨rfl, by omega⟩
  · exfalso
    have h2 : (y2 + 1) * size ≤ y1 * size := Nat.mul_le_mul_right size hy
    rw [Nat.succ_mul] at h2
    omega

lemma rowmajor_lt {size y x : Nat} (hx : x < size) (hy : y < size) :
    y * size + x < size * size := by
  have h2 : (y + 1) * size ≤ size * size := Nat.mul_le_mul_right size hy
  rw [Nat.succ_mul] at h2
  omega

lemma rowStep_length (size : Nat) (center radius dy2 : Int) (y : Nat)
    (px : List Nat) (x : Nat) :
    (rowStep size center radius dy2 y px x).length = px.length := by
  unfold rowStep; split <;> simp [List.length_set]

lemma foldl_rowStep_length (size : Nat) (center radius dy2 : Int) (y : Nat)
    (xs : List Nat) : ∀ px : List Nat,
    (xs.foldl (rowStep size center radius dy2 y) px).length = px.length := by
  induction xs with
  | nil => intro px; rfl
  | cons a rest ih =>
    intro px
    rw [List.foldl_cons, ih, rowStep_length]

lemma foldl_rowStep_untouched (size : Nat) (center radius dy2 : Int) (y : Nat)
    (xs : List Nat) : ∀ (px : List Nat) (j : Nat),
    (∀ x ∈ xs, j ≠ y * size + x) →
    (xs.foldl (rowStep size center radius dy2 y) px)[j]? = px[j]? := by
  induction xs with
  | nil => intro px j _; rfl
  | cons a rest ih =>
    intro px j hj
    rw [List.foldl_cons, ih _ _ (fun x hx => hj x (List.mem_cons_of_mem a hx))]
    unfold rowStep
    split
    · exact List.getElem?_set_ne fun h => hj a (List.mem_cons_self a rest) h.symm
    · rfl

lemma foldl_rowStep_value (size : Nat) (center radius dy2 : Int) (y : Nat) :
    ∀ (xs : List Nat), xs.Nodup → ∀ (px : List Nat) (x : Nat), x ∈ xs →
    y * size + x < px.length →
    (xs.foldl (rowStep size center radius dy2 y) px)[y * size + x]? =
      if ((x : Int) - center) * ((x : Int) - center) + dy2 ≤ radius then some maskWhite
      else px[y * size + x]? := by
  intro xs
  induction xs with
  | nil => intro _ px x hmem _; cases hmem
  | cons a rest ih =>
    intro hnd px x hmem hlen
    rw [List.foldl_cons]
    rcases List.mem_cons.mp hmem with rfl | hx
    · have hrest : x ∉ rest := (List.nodup_cons.mp hnd).1
      rw [foldl_rowStep_untouched size center radius dy2 y rest _ _
        (fun z hz h => hrest (by
          have hxz : x = z := by omega
          exact hxz ▸ hz))]
      unfold rowStep
      split
      · rw [List.getElem?_set]; simp [hlen]
      · rfl
    · have hne : x ≠ a := fun h => (List.nodup_cons.mp hnd).1 (h ▸ hx)
      have hstep : (rowStep size center radius dy2 y px a)[y * size + x]? =
          px[y * size + x]? := by
        unfold rowStep
        split
        · exact List.getElem?_set_ne fun h => hne (by omega)
        · rfl
      have hlen2 : y * size + x < (rowStep size center radius dy2 y px a).length := by
        rwa [rowStep_length]
      rw [ih (List.nodup_cons.mp hnd).2 _ x hx hlen2, hstep]

lemma colStep_length (size : Nat) (center radius : Int) (px : List Nat) (y : Nat) :
    (colStep size center radius px y).length = px.length := by
  unfold colStep shapeRow
  rw [foldl_rowStep_length]

lemma foldl_colStep_length (size : Nat) (center radius : Int) (ys : List Nat) :
    ∀ px : List Nat, (ys.foldl (colStep size center radius) px).length = px.length := by
  induction ys with
  | nil => intro px; rfl
  | cons a rest ih =>
    intro px
    rw [List.foldl_cons, ih, colStep_length]

lemma foldl_colStep_untouched (size : Nat) (center radius : Int) (ys : List Nat) :
    ∀ (px : List Nat) (y x : Nat), x < size → (∀ z ∈ ys, z ≠ y) →
    (ys.foldl (colStep size center radius) px)[y * size + x]? = px[y * size + x]? := by
  induction ys with
  | nil => intro px y x _ _; rfl
  | cons a rest ih =>
    intro px y x hx hy
    rw [List.foldl_cons, ih _ _ _ hx (fun z hz => hy z (List.mem_cons_of_mem a hz))]
    unfold colStep shapeRow
    refine foldl_rowStep_untouched size center radius _ a _ _ _ ?_
    intro z hz h
    have hzlt : z < size := List.mem_range.mp hz
    exact hy a (List.mem_cons_self a rest) (rowmajor_inj hx hzlt h).1.symm

lemma foldl_colStep_value (size : Nat) (center radius : Int) :
    ∀ (ys : List Nat), ys.Nodup → ∀ (px : List Nat) (y x : Nat), x < size → y < size →
    y ∈ ys → px.length = size * size →
    (ys.foldl (colStep size center radius) px)[y * size + x]? =
      if ((x : Int) - center) * ((x : Int) - center) +
          ((y : Int) - center) * ((y : Int) - center) ≤ radius then some maskWhite
      else px[y * size + x]? := by
  intro ys
  induction ys with
  | nil => intro _ px y x _ _ hmem _; cases hmem
  | cons a rest ih =>
    intro hnd px y x hx hy hmem hlen
    rw [List.foldl_cons]
    rcases List.mem_cons.mp hmem with rfl | hyr
    · have hrest : y ∉ rest := (List.nodup_cons.mp hnd).1
      rw [foldl_colStep_untouched size center radius rest _ y x hx
        (fun z hz h => hrest (h ▸ hz))]
      unfold colStep shapeRow
      rw [foldl_rowStep_value size center radius _ y (List.range size)
        (List.nodup_range size) px x (List.mem_range.mpr hx)
        (by rw [hlen]; exact rowmajor_lt hx hy)]
    · have hlen2 : (colStep size center radius px a).length = size * size := by
        rw [colStep_length, hlen]
      rw [ih (List.nodup_cons.mp hnd).2 _ y x hx hy hyr hlen2]
      have hne : y ≠ a := fun h2 => (List.nodup_cons.mp hnd).1 (h2 ▸ hyr)
      have hstep : (colStep size center radius px a)[y * size + x]? =
          px[y * size + x]? := by
        unfold colStep shapeRow
        refine foldl_rowStep_untouched size center radius _ a _ _ _ ?_
        intro z hz h
        have hzlt : z < size := List.mem_range.mp hz
        exact hne (rowmajor_inj hx hzlt h).1
      rw [hstep]

/-- The pixel of create_circular_shape at row y, column x, for x, y in
range: opaque white inside the inscribed disc, transparent elsewhere. -/
lemma create_circular_shape_pixel (size x y : Nat) (hx : x < size) (hy : y < size) :
    (create_circular_shape size)[y * size + x]? =
      some (if ((x : Int) - (size : Int) / 2) * ((x : Int) - (size : Int) / 2) +
          ((y : Int) - (size : Int) / 2) * ((y : Int) - (size : Int) / 2) ≤
          ((size : Int) / 2) * ((size : Int) / 2) then maskWhite else maskClear) := by
  unfold create_circular_shape
  rw [foldl_colStep_value size ((size : Int) / 2) (((size : Int) / 2) * ((size : Int) / 2))
    (List.range size) (List.nodup_range size)
    (List.replicate (size * size) maskClear) y x hx hy (List.mem_range.mpr hy) (by simp)]
  split
  · rfl
  · simp [List.getElem?_replicate, rowmajor_lt hx hy]

lemma create_circular_shape_length (size : Nat) :
    (create_circular_shape size).length = size * size := by
  unfold create_circular_shape
  rw [foldl_colStep_length]
  simp

/-!
Geometry/shape controller (circam.c lines 275-385).  State mirrors the
source variables: window_size and current_window_size (ints), the
pending-resize bookkeeping (pending_resize flag, pending_size,
last_resize_time), and the shape surface, tracked by the size it was
generated at (mask_size) together with a generation counter (mask_gen)
that advances each time shape_surface is replaced, so that regeneration
versus reuse of the mask is observable.  Each handler also emits the list
of display-layer calls it performs, in source order.
-/

structure GeoState where
  window_size : Int
  current_window_size : Int
  pending_resize : Bool
  pending_size : Int
  last_resize_time : Nat
  mask_size : Int
  mask_gen : Nat
  deriving Repr, DecidableEq

/-- Display-layer calls performed by the resize handlers, in order:
SDL_SetWindowSize, SDL_FreeSurface(shape_surface), create_circular_shape,
SDL_SetWindowShape, the assignment current_window_size = ..., and the
diagnostic printf of the rejected-resize branch. -/
inductive Op where
  | setWindowSize (w h : Int)
  | freeSurface
  | genShape (size : Int)
  | setShape (size : Int)
  | commitSize (size : Int)
  | logResizeFailed (req w h : Int)
  deriving Repr, DecidableEq

/-- Clamp of circam.c lines 293/305/343: if (window_size < MIN_WINDOW_SIZE)
window_size = MIN_WINDOW_SIZE. -/
def clampFloor (ws : Int) : Int :=
  if ws < MIN_WINDOW_SIZE then MIN_WINDOW_SIZE else ws

/-- SDLK_PLUS/SDLK_EQUALS handler (circam.c lines 290-301): grow by
SIZE_STEP, clamp, resize the window, free the old mask, regenerate and
apply the mask, then commit current_window_size. -/
def keyGrow (s : GeoState) : GeoState × List Op :=
  let ws := clampFloor (s.current_window_size + SIZE_STEP)
  ({ s with window_size := ws, current_window_size := ws,
            mask_size := ws, mask_gen := s.mask_gen + 1 },
   [Op.setWindowSize ws ws, Op.freeSurface, Op.genShape ws, Op.setShape ws,
    Op.commitSize ws])

/-- SDLK_MINUS handler (circam.c lines 302-313): shrink by SIZE_STEP,
clamp, resize the window, free the old mask, regenerate and apply the
mask, then commit current_window_size. -/
def keyShrink (s : GeoState) : GeoState × List Op :=
  let ws := clampFloor (s.current_window_size - SIZE_STEP)
  ({ s with window_size := ws, current_window_size := ws,
            mask_size := ws, mask_gen := s.mask_gen + 1 },
   [Op.setWindowSize ws ws, Op.freeSurface, Op.genShape ws, Op.setShape ws,
    Op.commitSize ws])

/-- SDL_MOUSEWHEEL handler (circam.c lines 337-351): one SIZE_STEP up for
wheel.y > 0, one down for wheel.y < 0 (window_size untouched when
wheel.y = 0), clamp, then the same resize/free/regenerate/apply/commit
sequence as the keyboard paths. -/
def wheelEvent (ywheel : Int) (s : GeoState) : GeoState × List Op :=
  let ws0 := if ywheel > 0 then s.current_window_size + SIZE_STEP
             else if ywheel < 0 then s.current_window_size - SIZE_STEP
             else s.window_size
  let ws := clampFloor ws0
  ({ s with window_size := ws, current_window_size := ws,
            mask_size := ws, mask_gen := s.mask_gen + 1 },
   [Op.setWindowSize ws ws, Op.freeSurface, Op.genShape ws, Op.setShape ws,
    Op.commitSize ws])

/-- SDL_WINDOWEVENT_SIZE_CHANGED handler (circam.c lines 353-362):
candidate = min(reported w, reported h); record it as the pending resize,
stamped with the current tick, only when it is at least MIN_WINDOW_SIZE
and differs from current_window_size; latest event wins. -/
def windowSizeChanged (w h : Int) (now : Nat) (s : GeoState) : GeoState :=
  let new_size := if w < h then w else h
  if MIN_WINDOW_SIZE ≤ new_size ∧ new_size ≠ s.current_window_size then
    { s with pending_resize := true, pending_size := new_size, last_resize_time := now }
  else s

/-- Stabilized-resize check (circam.c lines 368-385), run once per loop
iteration after the event drain.  aw/ah model the sizes SDL_GetWindowSize
reads back after SDL_SetWindowSize (the window manager may refuse or
alter the request).  On a square, exact read-back the size is committed
and the mask replaced; otherwise a diagnostic is printed, the state is
left alone, and the pending request is dropped either way. -/
def checkPendingResize (now : Nat) (aw ah : Int) (s : GeoState) : GeoState × List Op :=
  if s.pending_resize = true ∧ RESIZE_STABILIZE_MS ≤ now - s.last_resize_time then
    if aw = ah ∧ aw = s.pending_size then
      ({ s with window_size := s.pending_size, current_window_size := s.pending_size,
                mask_size := s.pending_size, mask_gen := s.mask_gen + 1,
                pending_resize := false },
       [Op.setWindowSize s.pending_size s.pending_size, Op.commitSize s.pending_size,
        Op.freeSurface, Op.genShape s.pending_size, Op.setShape s.pending_size])
    else
      ({ s with pending_resize := false },
       [Op.setWindowSize s.pending_size s.pending_size,
        Op.logResizeFailed s.pending_size aw ah])
  else (s, [])

/-- Observation points of the geometry controller within the main loop:
the three application-initiated resize handlers, a window-manager
size-changed event at tick t, and the per-iteration stabilized-resize
check at tick t with read-back sizes (aw, ah). -/
inductive GEvent where
  | keyGrow
  | keyShrink
  | wheel (y : Int)
  | wm (w h : Int) (t : Nat)
  | tick (t : Nat) (aw ah : Int)
  deriving Repr, DecidableEq

def geoStep (p : GeoState × List Op) (e : GEvent) : GeoState × List Op :=
  match e with
  | .keyGrow => let q := keyGrow p.1; (q.1, p.2 ++ q.2)
  | .keyShrink => let q := keyShrink p.1; (q.1, p.2 ++ q.2)
  | .wheel y => let q := wheelEvent y p.1; (q.1, p.2 ++ q.2)
  | .wm w h t => (windowSizeChanged w h t p.1, p.2)
  | .tick t aw ah => let q := checkPendingResize t aw ah p.1; (q.1, p.2 ++ q.2)

/-- Run a sequence of geometry observation points, accumulating the
display-layer calls. -/
def runGeo (evs : List GEvent) (p : GeoState × List Op) : GeoState × List Op :=
  evs.foldl geoStep p

/-- Geometry state right after startup with initial window size sz
(circam.c lines 222, 248, 258-259, 276): window created at sz, the mask
generated once at sz and applied, current_window_size = window_size = sz,
no pending resize. -/
def initGeo (sz : Int) : GeoState :=
  { window_size := sz, current_window_size := sz, pending_resize := false,
    pending_size := 0, last_resize_time := 0, mask_size := sz, mask_gen := 0 }

/-!
Capture pipeline (circam.c lines 152-215, 399-430, 439-441).  The driver
is an explicit parameter: how many buffers REQBUFS grants, which
QUERYBUF/mmap calls succeed, and which queued buffer each DQBUF returns.
-/

/-- Driver behaviour during the allocation phase. -/
structure DriverAlloc where
  granted : Nat
  querybufOk : Nat → Bool
  mmapOk : Nat → Bool

/-- Buffer map loop of circam.c lines 166-189: for each index below
req.count (the count VIDIOC_REQBUFS actually granted, which the code
never compares against the 4 it asked for), QUERYBUF then mmap; on either
failure the code frees the buffer array, closes the device and returns 1
without munmapping anything.  Result: (fell through to queueing?,
indices still mmapped at that point). -/
def mapLoop (d : DriverAlloc) : List Nat → List Nat → Bool × List Nat
  | [], mapped => (true, mapped)
  | i :: rest, mapped =>
    if d.querybufOk i = false then (false, mapped)
    else if d.mmapOk i = false then (false, mapped)
    else mapLoop d rest (mapped ++ [i])

/-- allocate_buffers: request 4 buffers (line 155), then map whatever the
driver granted. -/
def allocate_buffers (d : DriverAlloc) : Bool × List Nat :=
  mapLoop d (List.range d.granted) []

/-- Buffer-pool state: the indices currently in the driver's capture
queue, and the indices currently dequeued (owned by the application).
In the source every slot is mmapped once at startup and stays mapped
until the final teardown, so the pool is always queued plus owned. -/
structure CamState where
  queued : List (Fin 4)
  owned : List (Fin 4)
  deriving Repr, DecidableEq

/-- VIDIOC_QBUF of one slot (circam.c lines 192-205 and 428): the slot
moves from application ownership into the driver queue. -/
def enqueueOne (s : CamState) (i : Fin 4) : CamState :=
  { queued := s.queued ++ [i], owned := s.owned.erase i }

/-- VIDIOC_DQBUF (circam.c lines 414-422): the driver hands slot i back
to the application. -/
def dequeueSlot (s : CamState) (i : Fin 4) : CamState :=
  { queued := s.queued.erase i, owned := i :: s.owned }

/-- Pool state right after mmap, before the queue loop: all four slots
application-owned. -/
def camMapped : CamState := { queued := [], owned := List.finRange 4 }

/-- The queue loop of circam.c lines 192-205: every slot queued once. -/
def camInit : CamState := (List.finRange 4).foldl enqueueOne camMapped

/-- Environment outcome of one capture phase (circam.c lines 399-430):
select error, select timeout, DQBUF failure, or a frame in slot i
followed by a requeue that succeeds or fails. -/
inductive CycleEnv where
  | selectError
  | selectTimeout
  | dequeueFail
  | ready (i : Fin 4) (requeueOk : Bool)
  deriving Repr, DecidableEq

/-- A well-behaved driver only hands back buffers it currently holds. -/
def validEnv (s : CamState) : CycleEnv → Prop
  | .ready i _ => i ∈ s.queued
  | _ => True

instance (s : CamState) (e : CycleEnv) : Decidable (validEnv s e) := by
  cases e with
  | ready i rq => exact (inferInstance : Decidable (i ∈ s.queued))
  | selectError => exact (inferInstance : Decidable True)
  | selectTimeout => exact (inferInstance : Decidable True)
  | dequeueFail => exact (inferInstance : Decidable True)

/-- One capture phase: the three failure outcomes just log and continue,
leaving the pool untouched; on a ready frame the slot is dequeued,
consumed (SDL_UpdateTexture: a read, no pool change) and requeued, and a
failed requeue leaves the slot stuck on the application side. -/
def captureCycle (s : CamState) (e : CycleEnv) : CamState :=
  match e with
  | .selectError => s
  | .selectTimeout => s
  | .dequeueFail => s
  | .ready i rq =>
    let s1 := dequeueSlot s i
    if rq then enqueueOne s1 i else s1

def runCam (s : CamState) (es : List CycleEnv) : CamState := es.foldl captureCycle s

/-- Driver responses that are valid along the whole run. -/
inductive ValidTrace : CamState → List CycleEnv → Prop
  | nil (s : CamState) : ValidTrace s []
  | cons (s : CamState) (e : CycleEnv) (es : List CycleEnv) :
      validEnv s e → ValidTrace (captureCycle s e) es → ValidTrace s (e :: es)

/-- Pool invariant: the driver queue holds no duplicates and each slot is
in exactly one of the two ownership states. -/
def CamInv (s : CamState) : Prop :=
  s.queued.Nodup ∧ s.owned.Nodup ∧ ∀ i : Fin 4, i ∈ s.queued ↔ i ∉ s.owned

instance (s : CamState) : Decidable (CamInv s) := by
  unfold CamInv; infer_instance

/-!
Main loop wiring (circam.c lines 278-431): each iteration drains the SDL
event queue, runs the stabilized-resize check, renders, then runs one
capture phase.  Mouse button/motion events move the window only (drag is
pure translation and touches no size or capture state), so they appear
as the no-op constructor.
-/

inductive SdlEvent where
  | quit
  | keyEscape
  | keyPlusEq
  | keyMinus
  | mouseWheel (y : Int)
  | sizeChanged (w h : Int) (t : Nat)
  | mouseOther
  deriving Repr, DecidableEq

structure ProgState where
  geo : GeoState
  cam : CamState
  running : Bool
  deriving Repr, DecidableEq

/-- Event switch of circam.c lines 282-365. -/
def processEvent (s : ProgState) (e : SdlEvent) : ProgState :=
  match e with
  | .quit => { s with running := false }
  | .keyEscape => { s with running := false }
  | .keyPlusEq => { s with geo := (keyGrow s.geo).1 }
  | .keyMinus => { s with geo := (keyShrink s.geo).1 }
  | .mouseWheel y => { s with geo := (wheelEvent y s.geo).1 }
  | .sizeChanged w h t => { s with geo := windowSizeChanged w h t s.geo }
  | .mouseOther => s

/-- One iteration of the while(running) body: drain events, check the
stabilized resize (at tick now, with window read-back (aw, ah)), render,
then one capture phase with driver outcome env. -/
def loopIter (evs : List SdlEvent) (now : Nat) (aw ah : Int) (env : CycleEnv)
    (s : ProgState) : ProgState :=
  let s1 := evs.foldl processEvent s
  let s2 := { s1 with geo := (checkPendingResize now aw ah s1.geo).1 }
  { s2 with cam := captureCycle s2.cam env }

/-!
Command-line parsing (circam.c lines 58-96), including C's atoi on the
-s value (leading whitespace, optional sign, leading digits, else 0;
overflow is outside the model).
-/

def isCSpace (c : Char) : Bool :=
  c == ' ' || c == '\t' || c == '\n' || c == '\r' || c == '\x0b' || c == '\x0c'

def digitsVal : List Char → Int → Int
  | [], acc => acc
  | c :: cs, acc => if c.isDigit then digitsVal cs (acc * 10 + ((c.toNat : Int) - 48)) else acc

def atoi (s : String) : Int :=
  match s.data.dropWhile isCSpace with
  | '-' :: rest => - digitsVal rest 0
  | '+' :: rest => digitsVal rest 0
  | cs => digitsVal cs 0

structure Config where
  window_size : Int
  video_device : String
  always_on_top : Bool
  deriving Repr, DecidableEq

/-- Argument loop of circam.c lines 70-96: -t sets always-on-top, -s
takes the next token through atoi and rejects values below MIN_SIZE,
any other token becomes the device path (last one wins), and a missing
device is rejected after the loop. -/
def parseLoop : List String → Int → Option String → Bool → Except String Config
  | [], ws, vd, t =>
    match vd with
    | some dev => .ok ⟨ws, dev, t⟩
    | none => .error "Error: No video device specified"
  | a :: rest, ws, vd, t =>
    if a = "-t" then parseLoop rest ws vd true
    else if a = "-s" then
      match rest with
      | [] => .error "Error: -s requires a size value"
      | v :: rest2 =>
        let ws2 := atoi v
        if ws2 < MIN_SIZE then .error "Error: Size must be at least 100 pixels"
        else parseLoop rest2 ws2 vd t
    else parseLoop rest ws (some a) t

/-- parse_args over argv[1..]: the argc guard of lines 64-68 (argc < 2
or argc > 5 rejects), then the loop. -/
def parse_args (args : List String) : Except String Config :=
  if args.length < 1 ∨ args.length > 4 then .error "Usage"
  else parseLoop args DEFAULT_SIZE none false

/-!
Buffer-pool invariant lemmas.
-/

lemma camInv_dequeue {s : CamState} {i : Fin 4} (hi : i ∈ s.queued) (h : CamInv s) :
    CamInv (dequeueSlot s i) := by
  obtain ⟨hq, ho, hio⟩ := h
  have hino : i ∉ s.owned := (hio i).mp hi
  refine ⟨hq.erase i, List.nodup_cons.mpr ⟨hino, ho⟩, fun j => ?_⟩
  simp only [dequeueSlot]
  rw [hq.mem_erase_iff]
  constructor
  · rintro ⟨hji, hjq⟩ hmem
    rcases List.mem_cons.mp hmem with rfl | hjo
    · exact hji rfl
    · exact ((hio j).mp hjq) hjo
  · intro hmem
    have hji : j ≠ i := fun hh => hmem (hh ▸ List.mem_cons_self i s.owned)
    have hjo : j ∉ s.owned := fun hh => hmem (List.mem_cons_of_mem i hh)
    exact ⟨hji, (hio j).mpr hjo⟩

lemma camInv_enqueue {s : CamState} {i : Fin 4} (hi : i ∈ s.owned) (h : CamInv s) :
    CamInv (enqueueOne s i) := by
  obtain ⟨hq, ho, hio⟩ := h
  have hinq : i ∉ s.queued := fun hh => (hio i).mp hh hi
  refine ⟨?_, ho.erase i, fun j => ?_⟩
  · simp only [enqueueOne]
    rw [List.nodup_append]
    exact ⟨hq, List.nodup_singleton i, by
      intro a ha
      simp only [List.mem_singleton]
      exact fun hh => hinq (hh ▸ ha)⟩
  · simp only [enqueueOne]
    rw [List.mem_append, List.mem_singleton, ho.mem_erase_iff]
    constructor
    · rintro (hjq | rfl)
      · rintro ⟨-, hjo⟩
        exact (hio j).mp hjq hjo
      · rintro ⟨hji, -⟩
        exact hji rfl
    · intro hmem
      by_cases hji : j = i
      · exact Or.inr hji
      · have hjo : j ∉ s.owned := fun hh => hmem ⟨hji, hh⟩
        exact Or.inl ((hio j).mpr hjo)

lemma camInv_cycle {s : CamState} {e : CycleEnv} (hv : validEnv s e) (h : CamInv s) :
    CamInv (captureCycle s e) := by
  cases e with
  | selectError => exact h
  | selectTimeout => exact h
  | dequeueFail => exact h
  | ready i rq =>
    have h1 : CamInv (dequeueSlot s i) := camInv_dequeue hv h
    unfold captureCycle
    by_cases hrq : rq
    · simp only [hrq, if_true]
      exact camInv_enqueue (List.mem_cons_self i s.owned) h1
    · simp only [hrq, if_false]
      exact h1

lemma camInv_length {s : CamState} (h : CamInv s) :
    s.queued.length + s.owned.length = 4 := by
  obtain ⟨hq, ho, hio⟩ := h
  have hdisj : Disjoint s.queued.toFinset s.owned.toFinset := by
    rw [Finset.disjoint_left]
    intro a ha1 ha2
    exact (hio a).mp (List.mem_toFinset.mp ha1) (List.mem_toFinset.mp ha2)
  have huniv : s.queued.toFinset ∪ s.owned.toFinset = Finset.univ := by
    ext a
    simp only [Finset.mem_union, List.mem_toFinset, Finset.mem_univ, iff_true]
    by_cases hmem : a ∈ s.owned
    · exact Or.inr hmem
    · exact Or.inl ((hio a).mpr hmem)
  have hcard := congrArg Finset.card huniv
  rw [Finset.card_union_of_disjoint hdisj, List.toFinset_card_of_nodup hq,
    List.toFinset_card_of_nodup ho] at hcard
  simpa using hcard

lemma camInv_camInit : CamInv camInit := by decide

lemma validTrace_inv : ∀ {s : CamState} {es : List CycleEnv},
    CamInv s → ValidTrace s es → CamInv (runCam s es) := by
  intro s es h hv
  induction hv with
  | nil s2 => exact h
  | cons s2 e es2 hve _ ih => exact ih (camInv_cycle hve h)

/-!
Main-loop preservation lemmas for the running flag and the pool.
-/

lemma processEvent_cam (s : ProgState) (e : SdlEvent) : (processEvent s e).cam = s.cam := by
  cases e <;> rfl

lemma foldl_processEvent_cam (evs : List SdlEvent) : ∀ s : ProgState,
    (evs.foldl processEvent s).cam = s.cam := by
  induction evs with
  | nil => intro s; rfl
  | cons e rest ih =>
    intro s
    rw [List.foldl_cons, ih, processEvent_cam]

lemma processEvent_running (s : ProgState) (e : SdlEvent)
    (he : e ≠ SdlEvent.quit ∧ e ≠ SdlEvent.keyEscape) :
    (processEvent s e).running = s.running := by
  cases e with
  | quit => exact absurd rfl he.1
  | keyEscape => exact absurd rfl he.2
  | keyPlusEq => rfl
  | keyMinus => rfl
  | mouseWheel y => rfl
  | sizeChanged w h t => rfl
  | mouseOther => rfl

lemma foldl_processEvent_running (evs : List SdlEvent) : ∀ s : ProgState,
    (∀ e ∈ evs, e ≠ SdlEvent.quit ∧ e ≠ SdlEvent.keyEscape) →
    (evs.foldl processEvent s).running = s.running := by
  induction evs with
  | nil => intro s _; rfl
  | cons e rest ih =>
    intro s hq
    rw [List.foldl_cons, ih _ (fun x hx => hq x (List.mem_cons_of_mem e hx)),
      processEvent_running s e (hq e (List.mem_cons_self e rest))]

/-!
Geometry lemmas: the MIN_WINDOW_SIZE lower bound, the burst/debounce
behaviour, and the per-step clamp algebra.
-/

/-- Runtime size invariant: the committed size is at least
MIN_WINDOW_SIZE, and so is any recorded pending candidate. -/
def GeoInv (s : GeoState) : Prop :=
  MIN_WINDOW_SIZE ≤ s.current_window_size ∧
  (s.pending_resize = true → MIN_WINDOW_SIZE ≤ s.pending_size)

instance (s : GeoState) : Decidable (GeoInv s) := by
  unfold GeoInv; infer_instance

lemma clampFloor_ge (ws : Int) : MIN_WINDOW_SIZE ≤ clampFloor ws := by
  unfold clampFloor; split <;> omega

/-- Case split for the size-changed handler: either the event is ignored
or the candidate passes the two guards and is recorded as pending. -/
lemma windowSizeChanged_cases (w h : Int) (t : Nat) (s : GeoState) :
    (windowSizeChanged w h t s = s ∧
      ¬(MIN_WINDOW_SIZE ≤ (if w < h then w else h) ∧
        (if w < h then w else h) ≠ s.current_window_size)) ∨
    (windowSizeChanged w h t s =
      { s with pending_resize := true, pending_size := if w < h then w else h,
               last_resize_time := t } ∧
      MIN_WINDOW_SIZE ≤ (if w < h then w else h) ∧
      (if w < h then w else h) ≠ s.current_window_size) := by
  unfold windowSizeChanged
  by_cases hcond : MIN_WINDOW_SIZE ≤ (if w < h then w else h) ∧
      (if w < h then w else h) ≠ s.current_window_size
  · right
    exact ⟨by rw [if_pos hcond], hcond⟩
  · left
    exact ⟨by rw [if_neg hcond], hcond⟩

lemma geoInv_step (e : GEvent) (p : GeoState × List Op) (h : GeoInv p.1) :
    GeoInv (geoStep p e).1 := by
  obtain ⟨h1, h2⟩ := h
  cases e with
  | keyGrow => exact ⟨clampFloor_ge _, h2⟩
  | keyShrink => exact ⟨clampFloor_ge _, h2⟩
  | wheel y => exact ⟨clampFloor_ge _, h2⟩
  | wm w hh t =>
    show GeoInv (windowSizeChanged w hh t p.1)
    rcases windowSizeChanged_cases w hh t p.1 with ⟨heq, -⟩ | ⟨heq, hge, -⟩
    · rw [heq]; exact ⟨h1, h2⟩
    · rw [heq]; exact ⟨h1, fun _ => hge⟩
  | tick t aw ah =>
    simp only [geoStep, checkPendingResize]
    split
    · next hcond =>
      split
      · exact ⟨h2 hcond.1, fun hf => absurd hf (by simp)⟩
      · exact ⟨h1, fun hf => absurd hf (by simp)⟩
    · exact ⟨h1, h2⟩

lemma runGeo_geoInv : ∀ (evs : List GEvent) (p : GeoState × List Op),
    GeoInv p.1 → GeoInv (runGeo evs p).1 := by
  intro evs
  induction evs with
  | nil => intro p h; exact h
  | cons e rest ih =>
    intro p h
    exact ih (geoStep p e) (geoInv_step e p h)

/-- Events that may occur during a window-manager resize burst confined
to the stabilization window starting at tick T0: size-changed events
stamped at or after T0, and loop ticks strictly before T0 plus the
stabilization delay.  Keyboard/wheel resizes are not part of a burst. -/
def burstEv (T0 : Nat) : GEvent → Prop
  | .wm _ _ t => T0 ≤ t
  | .tick t _ _ => t < T0 + RESIZE_STABILIZE_MS
  | _ => False

instance (T0 : Nat) (e : GEvent) : Decidable (burstEv T0 e) := by
  cases e with
  | wm w h t => exact (inferInstance : Decidable (T0 ≤ t))
  | tick t aw ah => exact (inferInstance : Decidable (t < T0 + RESIZE_STABILIZE_MS))
  | keyGrow => exact (inferInstance : Decidable False)
  | keyShrink => exact (inferInstance : Decidable False)
  | wheel y => exact (inferInstance : Decidable False)

lemma burst_preserves (T0 : Nat) : ∀ (pre : List GEvent), (∀ e ∈ pre, burstEv T0 e) →
    ∀ (s : GeoState) (ops : List Op), (s.pending_resize = true → T0 ≤ s.last_resize_time) →
    (runGeo pre (s, ops)).1.current_window_size = s.current_window_size ∧
    (runGeo pre (s, ops)).1.window_size = s.window_size ∧
    (runGeo pre (s, ops)).1.mask_size = s.mask_size ∧
    (runGeo pre (s, ops)).1.mask_gen = s.mask_gen ∧
    ((runGeo pre (s, ops)).1.pending_resize = true →
      T0 ≤ (runGeo pre (s, ops)).1.last_resize_time) ∧
    (runGeo pre (s, ops)).2 = ops := by
  intro pre
  induction pre with
  | nil => intro _ s ops hlast; exact ⟨rfl, rfl, rfl, rfl, hlast, rfl⟩
  | cons e rest ih =>
    intro hpre s ops hlast
    have he : burstEv T0 e := hpre e (List.mem_cons_self e rest)
    have hrest : ∀ x ∈ rest, burstEv T0 x := fun x hx => hpre x (List.mem_cons_of_mem e hx)
    cases e with
    | keyGrow => exact absurd he (by simp [burstEv])
    | keyShrink => exact absurd he (by simp [burstEv])
    | wheel y => exact absurd he (by simp [burstEv])
    | wm w h t =>
      have hstep : runGeo (GEvent.wm w h t :: rest) (s, ops) =
          runGeo rest (windowSizeChanged w h t s, ops) := rfl
      rw [hstep]
      rcases windowSizeChanged_cases w h t s with ⟨heq, -⟩ | ⟨heq, -, -⟩
      · rw [heq]
        exact ih hrest s ops hlast
      · rw [heq]
        exact ih hrest _ ops (fun _ => he)
    | tick t aw ah =>
      have hcheck : checkPendingResize t aw ah s = (s, []) := by
        unfold checkPendingResize
        rw [if_neg]
        rintro ⟨hp, hge⟩
        have hT0 : T0 ≤ s.last_resize_time := hlast hp
        have hlt : t < T0 + RESIZE_STABILIZE_MS := he
        unfold RESIZE_STABILIZE_MS at hge hlt
        omega
      have hstep : runGeo (GEvent.tick t aw ah :: rest) (s, ops) =
          runGeo rest (s, ops ++ []) := by
        show runGeo rest (geoStep (s, ops) (GEvent.tick t aw ah)) = _
        simp only [geoStep, hcheck]
      rw [hstep, List.append_nil]
      exact ih hrest s ops hlast

/-- Delta, in SIZE_STEP units, of one application-initiated resize
event: +1 for key grow and wheel up, -1 for key shrink and wheel down,
0 for a wheel event with vertical value 0. -/
def stepDelta : GEvent → Int
  | .keyGrow => 1
  | .keyShrink => -1
  | .wheel y => if y > 0 then 1 else if y < 0 then -1 else 0
  | _ => 0

def isStepEvent : GEvent → Bool
  | .keyGrow => true
  | .keyShrink => true
  | .wheel _ => true
  | _ => false

lemma step_current (e : GEvent) (he : isStepEvent e = true) (s : GeoState) (ops : List Op)
    (hinv : s.window_size = s.current_window_size) :
    (geoStep (s, ops) e).1.current_window_size =
      clampFloor (s.current_window_size + stepDelta e * SIZE_STEP) ∧
    (geoStep (s, ops) e).1.window_size = (geoStep (s, ops) e).1.current_window_size := by
  cases e with
  | keyGrow =>
    refine ⟨?_, rfl⟩
    show clampFloor (s.current_window_size + SIZE_STEP) = _
    norm_num [stepDelta]
  | keyShrink =>
    refine ⟨?_, rfl⟩
    show clampFloor (s.current_window_size - SIZE_STEP) = _
    have harg : s.current_window_size - SIZE_STEP =
        s.current_window_size + stepDelta GEvent.keyShrink * SIZE_STEP := by
      simp [stepDelta]; ring
    rw [harg]
  | wheel y =>
    refine ⟨?_, rfl⟩
    show clampFloor (if y > 0 then s.current_window_size + SIZE_STEP
        else if y < 0 then s.current_window_size - SIZE_STEP else s.window_size) = _
    rcases lt_trichotomy y 0 with hy | hy | hy
    · rw [if_neg (by omega), if_pos hy]
      have harg : s.current_window_size - SIZE_STEP =
          s.current_window_size + stepDelta (GEvent.wheel y) * SIZE_STEP := by
        simp [stepDelta, if_neg (show ¬ y > 0 by omega), if_pos hy]; ring
      rw [harg]
    · subst hy
      rw [if_neg (by omega), if_neg (by omega), hinv]
      simp [stepDelta]
    · rw [if_pos hy]
      simp [stepDelta, if_pos hy]
  | wm w h t => simp [isStepEvent] at he
  | tick t aw ah => simp [isStepEvent] at he

lemma runGeo_step_fold : ∀ (evs : List GEvent), (∀ e ∈ evs, isStepEvent e = true) →
    ∀ (s : GeoState) (ops : List Op), s.window_size = s.current_window_size →
    (runGeo evs (s, ops)).1.current_window_size =
      (evs.map stepDelta).foldl (fun a d => clampFloor (a + d * SIZE_STEP))
        s.current_window_size := by
  intro evs
  induction evs with
  | nil => intro _ s ops _; rfl
  | cons e rest ih =>
    intro hstep s ops hinv
    have he := hstep e (List.mem_cons_self e rest)
    have hrest : ∀ x ∈ rest, isStepEvent x = true :=
      fun x hx => hstep x (List.mem_cons_of_mem e hx)
    obtain ⟨hcur, hwin⟩ := step_current e he s ops hinv
    have hrun : runGeo (e :: rest) (s, ops) = runGeo rest (geoStep (s, ops) e) := rfl
    rw [hrun, List.map_cons, List.foldl_cons]
    have := ih hrest (geoStep (s, ops) e).1 (geoStep (s, ops) e).2 hwin
    rw [← hcur]
    simpa using this

lemma foldl_clampFloor_sum : ∀ (ds : List Int) (c : Int),
    (∀ n : Nat, MIN_WINDOW_SIZE ≤ c + ((ds.take n).sum) * SIZE_STEP) →
    ds.foldl (fun a d => clampFloor (a + d * SIZE_STEP)) c = c + ds.sum * SIZE_STEP := by
  intro ds
  induction ds with
  | nil => intro c _; simp
  | cons d rest ih =>
    intro c hc
    have h1 : MIN_WINDOW_SIZE ≤ c + d * SIZE_STEP := by
      have h2 := hc 1
      simpa using h2
    have hcf : clampFloor (c + d * SIZE_STEP) = c + d * SIZE_STEP := by
      unfold clampFloor; split <;> omega
    rw [List.foldl_cons, hcf, ih (c + d * SIZE_STEP) ?_]
    · rw [List.sum_cons]; ring
    · intro n
      have h3 := hc (n + 1)
      rw [List.take_succ_cons, List.sum_cons] at h3
      have h4 : c + (d + (rest.take n).sum) * SIZE_STEP =
          c + d * SIZE_STEP + (rest.take n).sum * SIZE_STEP := by ring
      rw [h4] at h3
      exact h3

lemma parseLoop_min : ∀ (n : Nat) (args : List String), args.length ≤ n →
    ∀ (ws : Int) (vd : Option String) (t : Bool) (cfg : Config),
    MIN_SIZE ≤ ws → parseLoop args ws vd t = .ok cfg → MIN_SIZE ≤ cfg.window_size := by
  intro n
  induction n with
  | zero =>
    intro args hlen ws vd t cfg hws hok
    have hargs : args = [] := List.length_eq_zero.mp (Nat.le_zero.mp hlen)
    subst hargs
    simp only [parseLoop] at hok
    cases vd with
    | none => cases hok
    | some dev =>
      have : cfg = ⟨ws, dev, t⟩ := by cases hok; rfl
      rw [this]
      exact hws
  | succ m ih =>
    intro args hlen ws vd t cfg hws hok
    cases args with
    | nil =>
      simp only [parseLoop] at hok
      cases vd with
      | none => cases hok
      | some dev =>
        have : cfg = ⟨ws, dev, t⟩ := by cases hok; rfl
        rw [this]
        exact hws
    | cons a rest =>
      have hlen2 : rest.length ≤ m := by simpa using hlen
      unfold parseLoop at hok
      by_cases ha : a = "-t"
      · rw [if_pos ha] at hok
        exact ih rest hlen2 ws vd true cfg hws hok
      · rw [if_neg ha] at hok
        by_cases hs : a = "-s"
        · rw [if_pos hs] at hok
          cases rest with
          | nil => cases hok
          | cons v rest2 =>
            dsimp only at hok
            by_cases hv : atoi v < MIN_SIZE
            · rw [if_pos hv] at hok
              cases hok
            · rw [if_neg hv] at hok
              have hlen3 : rest2.length ≤ m := by
                simp at hlen2
                omega
              exact ih rest2 hlen3 (atoi v) vd t cfg (by omega) hok
        · rw [if_neg hs] at hok
          exact ih rest hlen2 ws (some a) t cfg hws hok

lemma reach_target (s : GeoState) (ops : List Op) (tgt : Int)
    (htgt : MIN_WINDOW_SIZE ≤ tgt) :
    ∃ evs, (runGeo evs (s, ops)).1.current_window_size = tgt := by
  by_cases heq : tgt = s.current_window_size
  · exact ⟨[], heq.symm⟩
  · refine ⟨[GEvent.wm tgt tgt 0, GEvent.tick RESIZE_STABILIZE_MS tgt tgt], ?_⟩
    have hwm : windowSizeChanged tgt tgt 0 s =
        { s with pending_resize := true, pending_size := tgt, last_resize_time := 0 } := by
      unfold windowSizeChanged
      simp only [lt_irrefl, if_false]
      rw [if_pos ⟨htgt, heq⟩]
    have hrun : (runGeo [GEvent.wm tgt tgt 0, GEvent.tick RESIZE_STABILIZE_MS tgt tgt]
        (s, ops)).1 = (checkPendingResize RESIZE_STABILIZE_MS tgt tgt
          { s with pending_resize := true, pending_size := tgt, last_resize_time := 0 }).1 := by
      show (geoStep (geoStep (s, ops) (GEvent.wm tgt tgt 0))
        (GEvent.tick RESIZE_STABILIZE_MS tgt tgt)).1 = _
      simp only [geoStep, hwm]
    rw [hrun]
    unfold checkPendingResize
    rw [if_pos (by constructor <;> simp)]
    rw [if_pos ⟨rfl, rfl⟩]

/-- Marker for the commit of current_window_size inside an operation
trace. -/
def isCommitOp : Op → Bool
  | .commitSize _ => true
  | _ => false

/-- Concrete geometry state with a pending window-manager resize to 130
recorded at tick 0, used by several examples. -/
def pendingEx : GeoState :=
  { initGeo 480 with
      pending_resize := true
      pending_size := 130
      last_resize_time := 0 }

/-- Membership predicate of the circular mask: the claim's inscribed
disc, (x - size/2)^2 + (y - size/2)^2 <= (size/2)^2 in integer
arithmetic. -/
def insideDisc (size x y : Nat) : Prop :=
  ((x : Int) - (size : Int) / 2) * ((x : Int) - (size : Int) / 2) +
    ((y : Int) - (size : Int) / 2) * ((y : Int) - (size : Int) / 2) ≤
    ((size : Int) / 2) * ((size : Int) / 2)

instance (size x y : Nat) : Decidable (insideDisc size x y) := by
  unfold insideDisc; infer_instance

/-!
Claims.
-/

/-- C1: the claim says a short REQBUFS grant or a partway mapping
failure yields an AllocationError with every already-mapped buffer
unmapped before the error propagates.  The code does neither: with the
driver granting 2 of the 4 requested buffers, allocation succeeds
(first conjunct: flag true, both buffers mapped, streaming proceeds —
no diagnostic, no exit), and when mmap fails at index 2 of 4 the error
path returns with buffers 0 and 1 still mapped (second conjunct: flag
false but the mapped list is [0, 1], not empty). -/
theorem allocation_partial_failure_code :
    allocate_buffers ⟨2, fun _ => true, fun _ => true⟩ = (true, [0, 1]) ∧
    allocate_buffers ⟨4, fun _ => true, fun i => decide (i < 2)⟩ = (false, [0, 1]) := by
  constructor <;> rfl

/-- C2: starting from the fully queued pool, after any valid sequence of
capture cycles the driver queue has no duplicate slot (so no slot is
queued while already queued), queued plus dequeued slots number exactly
4, each slot is in exactly one of the two states, and at the mid-cycle
observation point right after a dequeue the count is still 4 and the
dequeued slot is no longer in the queue (so its requeue never
double-queues). -/
theorem buffer_pool_invariant (es : List CycleEnv) (h : ValidTrace camInit es) :
    (runCam camInit es).queued.Nodup ∧
    (runCam camInit es).queued.length + (runCam camInit es).owned.length = 4 ∧
    (∀ i : Fin 4, i ∈ (runCam camInit es).queued ↔ i ∉ (runCam camInit es).owned) ∧
    (∀ (i : Fin 4) (rq : Bool), validEnv (runCam camInit es) (CycleEnv.ready i rq) →
      (dequeueSlot (runCam camInit es) i).queued.length +
        (dequeueSlot (runCam camInit es) i).owned.length = 4 ∧
      i ∉ (dequeueSlot (runCam camInit es) i).queued) := by
  have hinv := validTrace_inv camInv_camInit h
  refine ⟨hinv.1, camInv_length hinv, hinv.2.2, ?_⟩
  intro i rq hv
  have hd := camInv_dequeue hv hinv
  refine ⟨camInv_length hd, ?_⟩
  intro hmem
  have hmem2 : i ∈ (runCam camInit es).queued.erase i := hmem
  exact (hinv.1.mem_erase_iff.mp hmem2).1 rfl

/-- Witness for C2 at the concrete trace: a successful cycle on slot 0,
a select timeout, then a cycle on slot 1 whose requeue fails. -/
theorem buffer_pool_invariant_witness :
    ValidTrace camInit
      [CycleEnv.ready 0 true, CycleEnv.selectTimeout, CycleEnv.ready 1 false] ∧
    (runCam camInit
      [CycleEnv.ready 0 true, CycleEnv.selectTimeout, CycleEnv.ready 1 false]).queued.length +
    (runCam camInit
      [CycleEnv.ready 0 true, CycleEnv.selectTimeout, CycleEnv.ready 1 false]).owned.length
      = 4 := by
  have htr : ValidTrace camInit
      [CycleEnv.ready 0 true, CycleEnv.selectTimeout, CycleEnv.ready 1 false] := by
    refine ValidTrace.cons _ _ _ (by decide) ?_
    refine ValidTrace.cons _ _ _ trivial ?_
    refine ValidTrace.cons _ _ _ (by decide) ?_
    exact ValidTrace.nil _
  exact ⟨htr, (buffer_pool_invariant _ htr).2.1⟩

/-- C8: a readiness-wait error, a readiness-wait timeout, a dequeue
failure or a requeue failure leaves the main loop running (for every
capture outcome the running flag is still true after the iteration when
no quit/escape event arrived), and the three skip outcomes leave the
buffer pool untouched — none of them terminates the process. -/
theorem transient_capture_errors_nonfatal (evs : List SdlEvent) (now : Nat) (aw ah : Int)
    (s : ProgState) (hrun : s.running = true)
    (hq : ∀ e ∈ evs, e ≠ SdlEvent.quit ∧ e ≠ SdlEvent.keyEscape) :
    (∀ env : CycleEnv, (loopIter evs now aw ah env s).running = true) ∧
    (loopIter evs now aw ah CycleEnv.selectError s).cam = s.cam ∧
    (loopIter evs now aw ah CycleEnv.selectTimeout s).cam = s.cam ∧
    (loopIter evs now aw ah CycleEnv.dequeueFail s).cam = s.cam := by
  have hr : ∀ env : CycleEnv, (loopIter evs now aw ah env s).running =
      (evs.foldl processEvent s).running := fun _ => rfl
  have hc : ∀ env : CycleEnv, (loopIter evs now aw ah env s).cam =
      captureCycle (evs.foldl processEvent s).cam env := fun _ => rfl
  refine ⟨fun env => ?_, ?_, ?_, ?_⟩
  · rw [hr env, foldl_processEvent_running evs s hq, hrun]
  · rw [hc CycleEnv.selectError, foldl_processEvent_cam evs s]; rfl
  · rw [hc CycleEnv.selectTimeout, foldl_processEvent_cam evs s]; rfl
  · rw [hc CycleEnv.dequeueFail, foldl_processEvent_cam evs s]; rfl

/-- Witness for C8 at a concrete state and event list: a grow key plus a
wheel tick, with the pool in its initial configuration. -/
theorem transient_capture_errors_nonfatal_witness :
    (⟨initGeo 480, camInit, true⟩ : ProgState).running = true ∧
    (∀ e ∈ [SdlEvent.keyPlusEq, SdlEvent.mouseWheel 1],
      e ≠ SdlEvent.quit ∧ e ≠ SdlEvent.keyEscape) ∧
    (loopIter [SdlEvent.keyPlusEq, SdlEvent.mouseWheel 1] 0 0 0 CycleEnv.selectTimeout
      ⟨initGeo 480, camInit, true⟩).cam = (⟨initGeo 480, camInit, true⟩ : ProgState).cam :=
  ⟨rfl, by decide,
   (transient_capture_errors_nonfatal [SdlEvent.keyPlusEq, SdlEvent.mouseWheel 1] 0 0 0
     ⟨initGeo 480, camInit, true⟩ rfl (by decide)).2.2.1⟩

/-- C9: for every size at least 1 the generated shape surface has
size*size pixels; a pixel at column x, row y is the fully opaque white
value exactly when (x - size/2)^2 + (y - size/2)^2 <= (size/2)^2 in
integer arithmetic, and is the fully transparent value at every other
coordinate; the two pixel values have alpha 255 and 0 respectively. -/
theorem circular_shape_mask (size x y : Nat) (hsize : 1 ≤ size)
    (hx : x < size) (hy : y < size) :
    (create_circular_shape size).length = size * size ∧
    ((create_circular_shape size)[y * size + x]? = some maskWhite ↔ insideDisc size x y) ∧
    (¬ insideDisc size x y →
      (create_circular_shape size)[y * size + x]? = some maskClear) ∧
    alphaOf maskWhite = 255 ∧ alphaOf maskClear = 0 := by
  refine ⟨create_circular_shape_length size, ?_, ?_, by decide, by decide⟩
  · rw [create_circular_shape_pixel size x y hx hy]
    unfold insideDisc
    split
    · next hin => simp only [hin, iff_true]
    · next hout =>
      constructor
      · intro habs
        have : maskClear = maskWhite := Option.some.inj habs
        exact absurd this (by decide)
      · intro hin
        exact absurd hin hout
  · intro hout
    rw [create_circular_shape_pixel size x y hx hy]
    unfold insideDisc at hout
    rw [if_neg hout]

/-- Witness for C9 at size 4: pixel (2, 1) is inside the disc. -/
theorem circular_shape_mask_witness :
    1 ≤ 4 ∧ 2 < 4 ∧ 1 < 4 ∧
    ((create_circular_shape 4)[1 * 4 + 2]? = some maskWhite ↔ insideDisc 4 2 1) :=
  ⟨by decide, by decide, by decide,
   (circular_shape_mask 4 2 1 (by decide) (by decide) (by decide)).2.1⟩

/-- C3 counterexample: the claim requires the old mask to be discarded
only after the new one has been applied, and the order generate mask,
apply mask, then commit current_size.  At the concrete grow-key event
from the startup state at 480, SDL_FreeSurface on the old mask runs
strictly before the new mask is applied (index 1 versus index 3 of the
trace); and on the accepted window-manager resize to 130,
current_window_size is committed (index 1) before the new mask is even
generated (index 3). -/
theorem mask_discard_order_counterexample :
    ((keyGrow (initGeo 480)).2.indexOf Op.freeSurface <
      (keyGrow (initGeo 480)).2.indexOf (Op.setShape 490)) ∧
    ((checkPendingResize 100 130 130 pendingEx).2.indexOf (Op.commitSize 130) <
      (checkPendingResize 100 130 130 pendingEx).2.indexOf (Op.genShape 130)) := by
  constructor <;> decide

/-- C3 amended: on keyboard and wheel resizes the display-layer order is
resize window, free the old mask, generate the new mask, apply it,
commit the size; on an accepted stabilized window-manager resize the
order is resize window, commit the size, free the old mask, generate,
apply.  On every path the old mask is discarded before the new one is
generated. -/
theorem resize_op_order (s : GeoState) (now : Nat) (y : Int)
    (hy : 0 < y)
    (hp : s.pending_resize = true)
    (ht : RESIZE_STABILIZE_MS ≤ now - s.last_resize_time) :
    (keyGrow s).2 =
      [Op.setWindowSize (clampFloor (s.current_window_size + SIZE_STEP))
          (clampFloor (s.current_window_size + SIZE_STEP)),
        Op.freeSurface, Op.genShape (clampFloor (s.current_window_size + SIZE_STEP)),
        Op.setShape (clampFloor (s.current_window_size + SIZE_STEP)),
        Op.commitSize (clampFloor (s.current_window_size + SIZE_STEP))] ∧
    (keyShrink s).2 =
      [Op.setWindowSize (clampFloor (s.current_window_size - SIZE_STEP))
          (clampFloor (s.current_window_size - SIZE_STEP)),
        Op.freeSurface, Op.genShape (clampFloor (s.current_window_size - SIZE_STEP)),
        Op.setShape (clampFloor (s.current_window_size - SIZE_STEP)),
        Op.commitSize (clampFloor (s.current_window_size - SIZE_STEP))] ∧
    (wheelEvent y s).2 =
      [Op.setWindowSize (clampFloor (s.current_window_size + SIZE_STEP))
          (clampFloor (s.current_window_size + SIZE_STEP)),
        Op.freeSurface, Op.genShape (clampFloor (s.current_window_size + SIZE_STEP)),
        Op.setShape (clampFloor (s.current_window_size + SIZE_STEP)),
        Op.commitSize (clampFloor (s.current_window_size + SIZE_STEP))] ∧
    (checkPendingResize now s.pending_size s.pending_size s).2 =
      [Op.setWindowSize s.pending_size s.pending_size, Op.commitSize s.pending_size,
        Op.freeSurface, Op.genShape s.pending_size, Op.setShape s.pending_size] := by
  refine ⟨rfl, rfl, ?_, ?_⟩
  · unfold wheelEvent
    rw [if_pos hy]
  · unfold checkPendingResize
    rw [if_pos ⟨hp, ht⟩, if_pos ⟨rfl, rfl⟩]

/-- Witness for the amended C3 at a concrete pending state. -/
theorem resize_op_order_witness :
    (0 : Int) < 1 ∧
    pendingEx.pending_resize = true ∧
    RESIZE_STABILIZE_MS ≤ 100 - pendingEx.last_resize_time ∧
    (checkPendingResize 100 130 130 pendingEx).2 =
      [Op.setWindowSize 130 130, Op.commitSize 130, Op.freeSurface,
        Op.genShape 130, Op.setShape 130] :=
  ⟨by decide, rfl, by decide,
   (resize_op_order pendingEx 100 1 (by decide) rfl (by decide)).2.2.2⟩

/-- C4 counterexample: starting from current size 100, six shrink steps
followed by one grow step end at 60, but the claim's formula
clamp(initial + sum(deltas)*STEP, MIN_WINDOW_SIZE) gives
clamp(100 - 50) = 50: per-step clamping at MIN_WINDOW_SIZE is not the
clamp of the sum. -/
theorem resize_delta_sum_counterexample :
    (runGeo [GEvent.keyShrink, GEvent.keyShrink, GEvent.keyShrink, GEvent.keyShrink,
      GEvent.keyShrink, GEvent.keyShrink, GEvent.keyGrow]
      (initGeo 100, [])).1.current_window_size = 60 ∧
    clampFloor (100 + ([-1, -1, -1, -1, -1, -1, 1] : List Int).sum * SIZE_STEP) = 50 ∧
    (60 : Int) ≠ 50 := by
  refine ⟨by decide, by decide, by decide⟩

/-- C4 amended: keyboard and wheel steps are policy-identical (a grow
key and a wheel-up tick produce the same state, likewise shrink and
wheel-down), the size after any sequence of keyboard/wheel events is
the left fold of per-event updates clamp(prev + delta*STEP,
MIN_WINDOW_SIZE), and the claim's clamp-of-sum formula does hold
whenever no intermediate prefix dips below MIN_WINDOW_SIZE. -/
theorem resize_delta_fold (evs : List GEvent) (s : GeoState) (ops : List Op)
    (hinv : s.window_size = s.current_window_size)
    (hstep : ∀ e ∈ evs, isStepEvent e = true) :
    ((keyGrow s).1 = (wheelEvent 1 s).1 ∧ (keyShrink s).1 = (wheelEvent (-1) s).1) ∧
    (runGeo evs (s, ops)).1.current_window_size =
      (evs.map stepDelta).foldl (fun a d => clampFloor (a + d * SIZE_STEP))
        s.current_window_size ∧
    ((∀ n : Nat, MIN_WINDOW_SIZE ≤
        s.current_window_size + (((evs.map stepDelta).take n).sum) * SIZE_STEP) →
      (runGeo evs (s, ops)).1.current_window_size =
        s.current_window_size + (evs.map stepDelta).sum * SIZE_STEP) := by
  refine ⟨⟨?_, ?_⟩, runGeo_step_fold evs hstep s ops hinv, ?_⟩
  · unfold keyGrow wheelEvent
    norm_num
  · unfold keyShrink wheelEvent
    norm_num
  · intro hcl
    rw [runGeo_step_fold evs hstep s ops hinv, foldl_clampFloor_sum _ _ hcl]

/-- Witness for the amended C4 on a grow key then a wheel-up tick from
size 100. -/
theorem resize_delta_fold_witness :
    (initGeo 100).window_size = (initGeo 100).current_window_size ∧
    (∀ e ∈ [GEvent.keyGrow, GEvent.wheel 1], isStepEvent e = true) ∧
    (runGeo [GEvent.keyGrow, GEvent.wheel 1] (initGeo 100, [])).1.current_window_size =
      ([GEvent.keyGrow, GEvent.wheel 1].map stepDelta).foldl
        (fun a d => clampFloor (a + d * SIZE_STEP)) (initGeo 100).current_window_size :=
  ⟨rfl, by decide,
   (resize_delta_fold [GEvent.keyGrow, GEvent.wheel 1] (initGeo 100) [] rfl
     (by decide)).2.1⟩

/-- C5: from a state with no pending resize, any burst of size-changed
events and non-firing loop ticks confined to the stabilization window
starting at T0, followed by a final valid size-changed event reporting
(w, h) at tick t and a loop tick at tf at least the stabilization delay
after t whose read-back honours the request, produces exactly one
applied resize: the committed size, the regenerated mask and the single
display-layer burst all use the last candidate min(w, h), the pending
request is consumed, and the whole trace holds exactly one size
commit. -/
theorem wm_resize_debounce (T0 : Nat) (pre : List GEvent) (s0 : GeoState)
    (w h : Int) (t tf : Nat)
    (hpend : s0.pending_resize = false)
    (hpre : ∀ e ∈ pre, burstEv T0 e)
    (hcand : MIN_WINDOW_SIZE ≤ (if w < h then w else h))
    (hne : (if w < h then w else h) ≠ s0.current_window_size)
    (htf : t + RESIZE_STABILIZE_MS ≤ tf) :
    (runGeo (pre ++ [GEvent.wm w h t,
        GEvent.tick tf (if w < h then w else h) (if w < h then w else h)])
      (s0, [])).1.current_window_size = (if w < h then w else h) ∧
    (runGeo (pre ++ [GEvent.wm w h t,
        GEvent.tick tf (if w < h then w else h) (if w < h then w else h)])
      (s0, [])).1.pending_resize = false ∧
    (runGeo (pre ++ [GEvent.wm w h t,
        GEvent.tick tf (if w < h then w else h) (if w < h then w else h)])
      (s0, [])).1.mask_size = (if w < h then w else h) ∧
    (runGeo (pre ++ [GEvent.wm w h t,
        GEvent.tick tf (if w < h then w else h) (if w < h then w else h)])
      (s0, [])).1.mask_gen = s0.mask_gen + 1 ∧
    (runGeo (pre ++ [GEvent.wm w h t,
        GEvent.tick tf (if w < h then w else h) (if w < h then w else h)])
      (s0, [])).2 =
      [Op.setWindowSize (if w < h then w else h) (if w < h then w else h),
       Op.commitSize (if w < h then w else h), Op.freeSurface,
       Op.genShape (if w < h then w else h), Op.setShape (if w < h then w else h)] ∧
    ((runGeo (pre ++ [GEvent.wm w h t,
        GEvent.tick tf (if w < h then w else h) (if w < h then w else h)])
      (s0, [])).2.countP (fun o => isCommitOp o)) = 1 := by
  set c := if w < h then w else h with hc
  obtain ⟨hcur, hwin, hmsz, hmg, hpl, hops⟩ :=
    burst_preserves T0 pre hpre s0 [] (fun hp => absurd hp (by rw [hpend]; simp))
  have hsplit : runGeo (pre ++ [GEvent.wm w h t, GEvent.tick tf c c]) (s0, []) =
      runGeo [GEvent.wm w h t, GEvent.tick tf c c] (runGeo pre (s0, [])) := by
    unfold runGeo
    rw [List.foldl_append]
  rcases hP : runGeo pre (s0, []) with ⟨s1, ops1⟩
  rw [hP] at hcur hwin hmsz hmg hpl hops
  simp only at hcur hwin hmsz hmg hpl hops
  have hwm : windowSizeChanged w h t s1 =
      { s1 with pending_resize := true, pending_size := c, last_resize_time := t } := by
    rcases windowSizeChanged_cases w h t s1 with ⟨-, hno⟩ | ⟨heq, -, -⟩
    · rw [← hc] at hno
      exact absurd ⟨hcand, by rw [hcur]; exact hne⟩ hno
    · rw [← hc] at heq
      exact heq
  have h100 : RESIZE_STABILIZE_MS ≤ tf - t := by
    unfold RESIZE_STABILIZE_MS at htf ⊢
    omega
  have hcp : checkPendingResize tf c c
      { s1 with pending_resize := true, pending_size := c, last_resize_time := t } =
      ({ s1 with
          window_size := c
          current_window_size := c
          mask_size := c
          mask_gen := s1.mask_gen + 1
          pending_resize := false
          pending_size := c
          last_resize_time := t },
       [Op.setWindowSize c c, Op.commitSize c, Op.freeSurface,
        Op.genShape c, Op.setShape c]) := by
    unfold checkPendingResize
    rw [if_pos ⟨rfl, h100⟩, if_pos ⟨rfl, rfl⟩]
  have hrun2 : runGeo [GEvent.wm w h t, GEvent.tick tf c c] (s1, ops1) =
      ({ s1 with
          window_size := c
          current_window_size := c
          mask_size := c
          mask_gen := s1.mask_gen + 1
          pending_resize := false
          pending_size := c
          last_resize_time := t },
       ops1 ++ [Op.setWindowSize c c, Op.commitSize c, Op.freeSurface,
        Op.genShape c, Op.setShape c]) := by
    show geoStep (geoStep (s1, ops1) (GEvent.wm w h t)) (GEvent.tick tf c c) = _
    have hg1 : geoStep (s1, ops1) (GEvent.wm w h t) =
        ({ s1 with pending_resize := true, pending_size := c, last_resize_time := t },
         ops1) := by
      simp only [geoStep, hwm]
    rw [hg1]
    simp only [geoStep, hcp]
  rw [hsplit, hP, hrun2, hops]
  refine ⟨rfl, rfl, rfl, by rw [hmg], rfl, rfl⟩

/-- Witness for C5: a burst of two size-changed events and one idle tick
inside the window starting at tick 0, then a final event reporting
(130, 150) at tick 90 and a honouring tick at 190. -/
theorem wm_resize_debounce_witness :
    (initGeo 480).pending_resize = false ∧
    (∀ e ∈ [GEvent.wm 200 200 0, GEvent.tick 50 0 0, GEvent.wm 300 310 40],
      burstEv 0 e) ∧
    MIN_WINDOW_SIZE ≤ (if (130 : Int) < 150 then (130 : Int) else 150) ∧
    (if (130 : Int) < 150 then (130 : Int) else 150) ≠ (initGeo 480).current_window_size ∧
    90 + RESIZE_STABILIZE_MS ≤ 190 ∧
    (runGeo ([GEvent.wm 200 200 0, GEvent.tick 50 0 0, GEvent.wm 300 310 40] ++
        [GEvent.wm 130 150 90,
         GEvent.tick 190 (if (130 : Int) < 150 then (130 : Int) else 150)
           (if (130 : Int) < 150 then (130 : Int) else 150)])
      (initGeo 480, [])).1.current_window_size =
      (if (130 : Int) < 150 then (130 : Int) else 150) :=
  ⟨rfl, by decide, by decide, by decide, by decide,
   (wm_resize_debounce 0 [GEvent.wm 200 200 0, GEvent.tick 50 0 0, GEvent.wm 300 310 40]
     (initGeo 480) 130 150 90 190 rfl (by decide) (by decide) (by decide) (by decide)).1⟩

/-- C6: when the stabilized resize fires but the read-back size is
non-square or differs from the requested candidate, the committed size,
the window size and the mask (size and generation) are all left
unchanged, the pending request is discarded, the trace is just the
resize attempt and the diagnostic, and no mask is generated, applied or
freed. -/
theorem resize_rejection_safe (s : GeoState) (now : Nat) (aw ah : Int)
    (hp : s.pending_resize = true)
    (ht : RESIZE_STABILIZE_MS ≤ now - s.last_resize_time)
    (hbad : ¬(aw = ah ∧ aw = s.pending_size)) :
    (checkPendingResize now aw ah s).1.current_window_size = s.current_window_size ∧
    (checkPendingResize now aw ah s).1.window_size = s.window_size ∧
    (checkPendingResize now aw ah s).1.mask_size = s.mask_size ∧
    (checkPendingResize now aw ah s).1.mask_gen = s.mask_gen ∧
    (checkPendingResize now aw ah s).1.pending_resize = false ∧
    (checkPendingResize now aw ah s).2 =
      [Op.setWindowSize s.pending_size s.pending_size,
       Op.logResizeFailed s.pending_size aw ah] ∧
    (∀ sz : Int, Op.genShape sz ∉ (checkPendingResize now aw ah s).2) ∧
    (∀ sz : Int, Op.setShape sz ∉ (checkPendingResize now aw ah s).2) ∧
    Op.freeSurface ∉ (checkPendingResize now aw ah s).2 := by
  have hck : checkPendingResize now aw ah s =
      ({ s with pending_resize := false },
       [Op.setWindowSize s.pending_size s.pending_size,
        Op.logResizeFailed s.pending_size aw ah]) := by
    unfold checkPendingResize
    rw [if_pos ⟨hp, ht⟩, if_neg hbad]
  rw [hck]
  refine ⟨rfl, rfl, rfl, rfl, rfl, rfl, ?_, ?_, ?_⟩
  · intro sz hmem
    simp at hmem
  · intro sz hmem
    simp at hmem
  · intro hmem
    simp at hmem

/-- Witness for C6: the window manager answers 128 by 120 to a pending
request for 130. -/
theorem resize_rejection_safe_witness :
    pendingEx.pending_resize = true ∧
    RESIZE_STABILIZE_MS ≤ 100 - pendingEx.last_resize_time ∧
    ¬((128 : Int) = 120 ∧ (128 : Int) = pendingEx.pending_size) ∧
    (checkPendingResize 100 128 120 pendingEx).1.current_window_size =
      pendingEx.current_window_size :=
  ⟨rfl, by decide, by decide,
   (resize_rejection_safe pendingEx 100 128 120 rfl (by decide) (by decide)).1⟩

/-- C7 counterexample: at current size 50 (the runtime floor, reachable
by shrinking from any start), a shrink key clamps its target back to 50,
equal to the current size, yet the handler still resizes the window and
frees and regenerates the shape mask — the claim says a same-target
resize leaves the window and the mask alone. -/
theorem resize_noop_counterexample :
    clampFloor ((initGeo 50).current_window_size - SIZE_STEP) =
      (initGeo 50).current_window_size ∧
    (keyShrink (initGeo 50)).1.current_window_size = (initGeo 50).current_window_size ∧
    (keyShrink (initGeo 50)).1.mask_gen = (initGeo 50).mask_gen + 1 ∧
    Op.genShape 50 ∈ (keyShrink (initGeo 50)).2 ∧
    Op.setWindowSize 50 50 ∈ (keyShrink (initGeo 50)).2 := by
  refine ⟨by decide, by decide, by decide, by decide, by decide⟩

/-- C7 amended: a window-manager size-changed event whose candidate
equals current_window_size is ignored entirely (state unchanged, so no
resize and no mask work), which is the only same-target no-op path; the
keyboard/wheel handlers always resize the window and replace the mask,
but when the clamped target equals the current size (shrink at the
floor, or a vertical wheel value of 0) the committed size is unchanged
and the replacement mask is generated at that same unchanged size, so
its content is identical — a value-level no-op only. -/
theorem resize_same_target (w h : Int) (tm : Nat) (s : GeoState)
    (hsame : (if w < h then w else h) = s.current_window_size) :
    windowSizeChanged w h tm s = s ∧
    (s.current_window_size = MIN_WINDOW_SIZE →
      (keyShrink s).1.current_window_size = s.current_window_size ∧
      (keyShrink s).1.mask_size = s.current_window_size ∧
      (keyShrink s).1.mask_gen = s.mask_gen + 1) ∧
    (s.window_size = s.current_window_size → MIN_WINDOW_SIZE ≤ s.current_window_size →
      (wheelEvent 0 s).1.current_window_size = s.current_window_size ∧
      (wheelEvent 0 s).1.mask_size = s.current_window_size ∧
      (wheelEvent 0 s).1.mask_gen = s.mask_gen + 1) := by
  refine ⟨?_, ?_, ?_⟩
  · rcases windowSizeChanged_cases w h tm s with ⟨heq, -⟩ | ⟨-, -, hne⟩
    · exact heq
    · exact absurd hsame hne
  · intro hcur
    have hcl : clampFloor (s.current_window_size - SIZE_STEP) = s.current_window_size := by
      rw [hcur]; decide
    exact ⟨hcl, hcl, rfl⟩
  · intro hwin hge
    have hws : clampFloor (if (0 : Int) > 0 then s.current_window_size + SIZE_STEP
        else if (0 : Int) < 0 then s.current_window_size - SIZE_STEP
        else s.window_size) = s.current_window_size := by
      rw [if_neg (by norm_num), if_neg (by norm_num), hwin]
      unfold clampFloor
      rw [if_neg (by omega)]
    exact ⟨hws, hws, rfl⟩

/-- Witness for the amended C7 at current size 50 and a (50, 50)
window-manager event. -/
theorem resize_same_target_witness :
    (if (50 : Int) < 50 then (50 : Int) else 50) = (initGeo 50).current_window_size ∧
    windowSizeChanged 50 50 7 (initGeo 50) = initGeo 50 :=
  ⟨by decide, (resize_same_target 50 50 7 (initGeo 50) (by decide)).1⟩

/-- C10: the runtime floor MIN_WINDOW_SIZE is 50, strictly below the
CLI minimum MIN_SIZE = 100 that every accepted -s value satisfies;
every committed size stays at or above 50 across arbitrary resize
activity from any state satisfying the size invariant; and every target
at or above 50 is reachable by resize events. -/
theorem min_window_size_bound :
    (MIN_WINDOW_SIZE = 50 ∧ MIN_SIZE = 100 ∧ MIN_WINDOW_SIZE < MIN_SIZE) ∧
    (∀ (args : List String) (cfg : Config),
      parse_args args = Except.ok cfg → MIN_SIZE ≤ cfg.window_size) ∧
    (∀ (evs : List GEvent) (s : GeoState) (ops : List Op), GeoInv s →
      MIN_WINDOW_SIZE ≤ (runGeo evs (s, ops)).1.current_window_size) ∧
    (∀ (s : GeoState) (ops : List Op) (tgt : Int), MIN_WINDOW_SIZE ≤ tgt →
      ∃ evs, (runGeo evs (s, ops)).1.current_window_size = tgt) := by
  refine ⟨⟨rfl, rfl, by decide⟩, ?_, ?_, ?_⟩
  · intro args cfg hok
    unfold parse_args at hok
    by_cases hlen : args.length < 1 ∨ args.length > 4
    · rw [if_pos hlen] at hok
      cases hok
    · rw [if_neg hlen] at hok
      exact parseLoop_min args.length args le_rfl DEFAULT_SIZE none false cfg
        (by decide) hok
  · intro evs s ops hinv
    exact (runGeo_geoInv evs (s, ops) hinv).1
  · intro s ops tgt htgt
    exact reach_target s ops tgt htgt

/-- Witness for C10: the parse of -s 256 /dev/video0, and the invariant
instance at the startup state for 256. -/
theorem min_window_size_bound_witness :
    parse_args ["-s", "256", "/dev/video0"] =
      Except.ok ⟨256, "/dev/video0", false⟩ ∧
    MIN_SIZE ≤ (Config.mk 256 "/dev/video0" false).window_size ∧
    GeoInv (initGeo 256) ∧
    MIN_WINDOW_SIZE ≤
      (runGeo [GEvent.keyShrink] (initGeo 256, [])).1.current_window_size := by
  have hpar : parse_args ["-s", "256", "/dev/video0"] =
      Except.ok ⟨256, "/dev/video0", false⟩ := rfl
  exact ⟨hpar, min_window_size_bound.2.1 ["-s", "256", "/dev/video0"] _ hpar,
    by decide,
    min_window_size_bound.2.2.1 [GEvent.keyShrink] (initGeo 256) [] (by decide)⟩

end Circam
